import Mathlib

/-
Shallow embedding of the BeHappyAssistant backend (src/index.ts together
with the table declarations in src/db/schema.ts).

Modelling conventions:
* Database tables are Lean lists kept in insertion order.  The created_at
  timestamps strictly increase along the lists (the clock field below), so
  the query ORDER BY created_at DESC coincides with List.reverse of the
  filtered table.
* JWT signing and verification are abstracted: a token is opaque, and the
  middleware receives the verification function as a parameter returning
  the decoded userId claim on success.  The token issued by login is
  represented by the userId claim it carries.
* The outbound fetch to the completion service is abstracted as a function
  from the prompt string to a CompletionResult describing the shapes the
  handler can observe: a network error (fetch or JSON parsing throws, or
  the content field is missing, so that reading it throws before any
  write), a non-ok HTTP status, or a parsed body whose content array
  carries, per element, the optional text field.  A none element models a
  content element without a text field: there reading content[0].text
  yields undefined without throwing, and the handler proceeds.
* JSON string fields read from request bodies are modelled as
  Option String (absent or present); JS falsiness on them is the
  predicate strFalsy below.  PUT /profile bodies are association lists
  whose values are either arrays (restricted to string elements, matching
  the text column they are stored in unchanged) or scalars, which the
  handler passes through the JS String() coercion.
* D1 storage operations never fail in the model, so the catch-all 500
  branches for storage errors are not exercised.
-/

/-- Row of the users table (id, email, name; timestamps omitted because no
handler reads them). -/
structure User where
  id : Nat
  email : String
  name : Option String
deriving Repr, DecidableEq

/-- Row of the user_entries table. -/
structure Entry where
  id : Nat
  userId : Nat
  content : String
  aiResponse : Option String
  createdAt : Nat
deriving Repr, DecidableEq

/-- Row of the user_context table (timestamps omitted). -/
structure ContextFact where
  id : Nat
  userId : Nat
  contextKey : String
  contextValue : String
deriving Repr, DecidableEq

/-- The persistent store: the three tables in insertion order, the
autoincrement counter and the timestamp clock. -/
structure Db where
  users : List User
  entries : List Entry
  contexts : List ContextFact
  nextId : Nat
  clock : Nat
deriving Repr, DecidableEq

/-- JS falsiness of an optional string request field: absent or empty. -/
def strFalsy : Option String → Bool
  | none => true
  | some s => s = ""

/-- Result of the auth middleware: the decoded userId, or an HTTPException
with status and message. -/
inductive AuthResult where
  | ok (userId : Nat)
  | err (status : Nat) (message : String)
deriving Repr, DecidableEq

/-- The JS String.prototype.startsWith check of line 24, modelled on the
character sequences of the two strings. -/
def strStartsWith (s pre : String) : Bool := pre.data.isPrefixOf s.data

/-- authMiddleware from src/index.ts lines 22 to 36: reject with 401
Unauthorized when the Authorization header is absent or does not start
with the Bearer marker; otherwise strip the first seven characters
and verify the token, rejecting with 401 Invalid token when verification
fails.  The verify argument abstracts hono/jwt verify with the server
secret, returning the userId claim of the payload. -/
def authMiddleware (authHeader : Option String) (verify : String → Option Nat) : AuthResult :=
  match authHeader with
  | none => .err 401 "Unauthorized"
  | some h =>
    if strStartsWith h "Bearer " then
      match verify (h.drop 7) with
      | some uid => .ok uid
      | none => .err 401 "Invalid token"
    else .err 401 "Unauthorized"

/-- Response of POST /auth/login: the token (represented by the userId
claim it is signed over) and the user projection, or an error. -/
inductive LoginResp where
  | ok (tokenUserId : Nat) (id : Nat) (email : String) (name : Option String)
  | err (status : Nat) (message : String)
deriving Repr, DecidableEq

/-- POST /auth/login from src/index.ts lines 43 to 70: reject 400 when the
email is falsy; select the first users row with that email; insert a fresh
row when none exists (name stored as name or null); sign a token over the
userId and echo the user. -/
def login (db : Db) (email name : Option String) : Db × LoginResp :=
  if strFalsy email then (db, .err 400 "Email is required")
  else
    let e := email.getD ""
    match db.users.find? (fun u => u.email = e) with
    | some u => (db, .ok u.id u.id u.email u.name)
    | none =>
      let u : User := { id := db.nextId, email := e,
                        name := if strFalsy name then none else name }
      ({ db with users := db.users ++ [u], nextId := db.nextId + 1 },
       .ok u.id u.id u.email u.name)

/-- What the POST /entries handler can observe of the completion call:
fetch throwing (also standing for a body on which reading the content
array itself throws), a non-ok HTTP status, or a parsed body whose
content array carries one entry per element holding that element's
optional text field.  A none element represents a content element
without a text field, where content[0].text is undefined but does not
throw. -/
inductive CompletionResult where
  | netError
  | httpError (status : Nat)
  | body (content : List (Option String))
deriving Repr, DecidableEq

/-- JS Array.prototype.join with the given separator. -/
def joinSep (sep : String) : List String → String
  | [] => ""
  | [x] => x
  | x :: y :: ys => x ++ sep ++ joinSep sep (y :: ys)

/-- Template-literal rendering of a nullable column. -/
def optStr : Option String → String
  | none => "null"
  | some s => s

/-- Line 96: userContextData.map(key colon value).join(comma space). -/
def contextString (facts : List ContextFact) : String :=
  joinSep ", " (facts.map fun ctx => ctx.contextKey ++ ": " ++ ctx.contextValue)

/-- Line 97: recentEntries rendered as User/AI blocks joined by blank
lines. -/
def historyString (entries : List Entry) : String :=
  joinSep "\n\n" (entries.map fun entry => "User: " ++ entry.content ++ "\nAI: " ++ optStr entry.aiResponse)

/-- SELECT from user_context WHERE userId = uid (insertion order). -/
def userContextData (db : Db) (userId : Nat) : List ContextFact :=
  db.contexts.filter fun ctx => ctx.userId = userId

/-- The user_entries rows of one user, in insertion order. -/
def entriesByUser (db : Db) (userId : Nat) : List Entry :=
  db.entries.filter fun e => e.userId = userId

/-- SELECT from user_entries WHERE userId = uid ORDER BY created_at DESC;
timestamps strictly increase along db.entries, so this is the reverse of
insertion order. -/
def entriesNewestFirst (db : Db) (userId : Nat) : List Entry :=
  (entriesByUser db userId).reverse

/-- Lines 89 to 93: the five most recent entries, newest first. -/
def recentEntries (db : Db) (userId : Nat) : List Entry :=
  (entriesNewestFirst db userId).take 5

/-- Line 102: contextString with its falsy fallback. -/
def contextPart (db : Db) (userId : Nat) : String :=
  let s := contextString (userContextData db userId)
  if s = "" then "No specific context available" else s

/-- Line 105: historyString with its falsy fallback. -/
def historyPart (db : Db) (userId : Nat) : String :=
  let s := historyString (recentEntries db userId)
  if s = "" then "No previous conversations" else s

/-- The full prompt template of lines 100 to 109. -/
def aiPrompt (db : Db) (userId : Nat) (content : String) : String :=
  "You are a personal well-being assistant focused on helping people become happier. \n\nUser Context: "
  ++ contextPart db userId
  ++ "\n\nRecent conversation history:\n"
  ++ historyPart db userId
  ++ "\n\nCurrent user input: \"" ++ content ++ "\"\n\n"
  ++ "Please provide personalized, actionable advice to help this person improve their well-being and happiness. Be empathetic, specific, and solution-focused. Consider their unique circumstances and history."

/-- Response of POST /entries. -/
inductive EntryResp where
  | ok (entry : Entry) (recommendation : Option String)
  | err (status : Nat) (message : String)
deriving Repr, DecidableEq

/-- POST /entries from src/index.ts lines 73 to 151: validate content,
assemble the prompt from stored context and the five most recent entries,
call the completion service once on that prompt.  A thrown fetch, a
non-ok status, and an empty content array (where content[0].text throws)
are caught and answered with 500 and no write.  Otherwise the handler
reads recommendation from content[0].text and inserts exactly one
user_entries row carrying it, echoing the row and the recommendation;
when the first content element lacks a text field the recommendation is
undefined and the row is inserted with a NULL ai_response all the same. -/
def postEntry (db : Db) (userId : Nat) (content : Option String)
    (svc : String → CompletionResult) : Db × EntryResp :=
  if strFalsy content then (db, .err 400 "Content is required")
  else
    let contentS := content.getD ""
    match svc (aiPrompt db userId contentS) with
    | .netError => (db, .err 500 "Failed to generate recommendation")
    | .httpError _ => (db, .err 500 "Failed to generate recommendation")
    | .body [] => (db, .err 500 "Failed to generate recommendation")
    | .body (recommendation :: _) =>
      let newEntry : Entry := { id := db.nextId, userId := userId, content := contentS,
                                aiResponse := recommendation, createdAt := db.clock }
      ({ db with entries := db.entries ++ [newEntry],
                 nextId := db.nextId + 1, clock := db.clock + 1 },
       .ok newEntry recommendation)

/-- Response of GET /entries. -/
inductive EntriesListResp where
  | ok (entries : List Entry)
  | err (status : Nat) (message : String)
deriving Repr, DecidableEq

/-- GET /entries from src/index.ts lines 154 to 172: the user rows newest
first with LIMIT and OFFSET, the query parameters defaulting to 20 and 0
when absent. -/
def getEntries (db : Db) (userId : Nat) (limitQ offsetQ : Option Nat) : EntriesListResp :=
  let lim := limitQ.getD 20
  let off := offsetQ.getD 0
  .ok (((entriesNewestFirst db userId).drop off).take lim)

/-- The rows of a GET /entries response (empty on error). -/
def respEntries : EntriesListResp → List Entry
  | .ok es => es
  | .err _ _ => []

/-- A JSON scalar as it can appear as a PUT /profile value. -/
inductive JScalar where
  | jstr (s : String)
  | jnum (n : Int)
  | jbool (b : Bool)
  | jnull
  | jobj
deriving Repr, DecidableEq

/-- The JS String() coercion applied by the non-array branch of the
PUT /profile loop (numbers are modelled as integers; objects all render
to the bracketed object Object text). -/
def jsString : JScalar → String
  | .jstr s => s
  | .jnum n => toString n
  | .jbool true => "true"
  | .jbool false => "false"
  | .jnull => "null"
  | .jobj => "[object Object]"

/-- A value of the PUT /profile body: an array, whose elements the
handler inserts unchanged (modelled as the strings the text column
stores), or a scalar passed through String(). -/
inductive PutVal where
  | arr (vs : List String)
  | scalar (v : JScalar)
deriving Repr, DecidableEq

/-- The key/value pairs the PUT /profile loop of lines 218 to 235 pushes
onto contextEntries, in order: array values element-wise unchanged,
everything else through String(). -/
def putPairs : List (String × PutVal) → List (String × String)
  | [] => []
  | (k, .arr vs) :: rest => vs.map (fun v => (k, v)) ++ putPairs rest
  | (k, .scalar v) :: rest => (k, jsString v) :: putPairs rest

/-- The inserted context rows, ids assigned by autoincrement from
firstId. -/
def mkContextRows (userId firstId : Nat) : List (String × String) → List ContextFact
  | [] => []
  | (k, v) :: rest =>
    { id := firstId, userId := userId, contextKey := k, contextValue := v }
      :: mkContextRows userId (firstId + 1) rest

/-- Response of PUT /profile. -/
inductive PutResp where
  | ok (success : Bool) (message : String)
  | err (status : Nat) (message : String)
deriving Repr, DecidableEq

/-- PUT /profile from src/index.ts lines 207 to 245: delete every context
row of the user, rebuild the rows from the body (skipping the insert when
there are none) and report success. -/
def putProfile (db : Db) (userId : Nat) (body : List (String × PutVal)) : Db × PutResp :=
  let cleared := db.contexts.filter fun ctx => ctx.userId ≠ userId
  let rows := mkContextRows userId db.nextId (putPairs body)
  ({ db with contexts := cleared ++ rows, nextId := db.nextId + (putPairs body).length },
   .ok true "Profile updated successfully")

/-- One inbound request, with the authenticated identity already resolved
for the endpoints behind the middleware. -/
inductive Op where
  | loginOp (email name : Option String)
  | postEntryOp (userId : Nat) (content : Option String) (svc : String → CompletionResult)
  | getEntriesOp (userId : Nat) (limitQ offsetQ : Option Nat)
  | getProfileOp (userId : Nat)
  | putProfileOp (userId : Nat) (body : List (String × PutVal))

/-- The store after handling one request. -/
def step (db : Db) : Op → Db
  | .loginOp e n => (login db e n).1
  | .postEntryOp u c svc => (postEntry db u c svc).1
  | .getEntriesOp _ _ _ => db
  | .getProfileOp _ => db
  | .putProfileOp u b => (putProfile db u b).1

/-- The store after a sequence of requests. -/
def run (db : Db) : List Op → Db
  | [] => db
  | op :: ops => run (step db op) ops

/-! Concrete fixtures used by witnesses. -/

/-- A store holding one user and nothing else. -/
def db0 : Db :=
  { users := [{ id := 1, email := "a@b.c", name := none }],
    entries := [], contexts := [], nextId := 2, clock := 1 }

/-- A verification function that rejects every token. -/
def verifyNone : String → Option Nat := fun _ => none

/-- A completion service that always answers with one content element
carrying a text field. -/
def svcOk : String → CompletionResult := fun _ => .body [some "advice"]

/-- A completion service whose fetch always throws. -/
def svcDown : String → CompletionResult := fun _ => .netError

/-- A completion service answering 200 with the parsed body whose content
array holds one element without a text field. -/
def svcNoText : String → CompletionResult := fun _ => .body [none]

/-- Claim C1: a successful entry submission by an authenticated user with
non-empty content inserts exactly one new Entry row whose aiResponse is
the text of the first returned content element, and the response carries
that same row and that same text; no other table changes. -/
theorem entry_success_persists_once (db : Db) (uid : Nat) (content : String)
    (svc : String → CompletionResult) (t : String) (rest : List (Option String))
    (hc : content ≠ "")
    (hs : svc (aiPrompt db uid content) = .body (some t :: rest)) :
    ∃ e : Entry,
      (postEntry db uid (some content) svc).1.entries = db.entries ++ [e]
      ∧ e.aiResponse = some t
      ∧ e.content = content
      ∧ e.userId = uid
      ∧ (postEntry db uid (some content) svc).2 = .ok e (some t)
      ∧ (postEntry db uid (some content) svc).1.users = db.users
      ∧ (postEntry db uid (some content) svc).1.contexts = db.contexts := by
  refine ⟨{ id := db.nextId, userId := uid, content := content,
            aiResponse := some t, createdAt := db.clock }, ?_⟩
  simp [postEntry, strFalsy, hc, hs]

/-- Witness for C1 at a concrete store, user and service. -/
theorem entry_success_persists_once_witness :
    ∃ e : Entry,
      (postEntry db0 1 (some "hello") svcOk).1.entries = db0.entries ++ [e]
      ∧ e.aiResponse = some "advice"
      ∧ e.content = "hello"
      ∧ e.userId = 1
      ∧ (postEntry db0 1 (some "hello") svcOk).2 = .ok e (some "advice")
      ∧ (postEntry db0 1 (some "hello") svcOk).1.users = db0.users
      ∧ (postEntry db0 1 (some "hello") svcOk).1.contexts = db0.contexts :=
  entry_success_persists_once db0 1 "hello" svcOk "advice" [] (by decide) rfl

/-- Claim C2 counterexample: at the malformed response body whose content
array holds one element without a text field, the handler does not treat
the call as failed: it inserts an Entry row with a NULL aiResponse and
answers success, with the recommendation undefined. -/
theorem entry_malformed_body_inserts_row :
    (postEntry db0 1 (some "hello") svcNoText).1.entries
      = db0.entries ++ [{ id := db0.nextId, userId := 1, content := "hello",
                          aiResponse := none, createdAt := db0.clock }]
    ∧ (postEntry db0 1 (some "hello") svcNoText).2
      = .ok { id := db0.nextId, userId := 1, content := "hello",
              aiResponse := none, createdAt := db0.clock } none
    ∧ (∀ s m, (postEntry db0 1 (some "hello") svcNoText).2 ≠ .err s m)
    ∧ (postEntry db0 1 (some "hello") svcNoText).1 ≠ db0 := by
  refine ⟨rfl, rfl, ?_, by decide⟩
  intro s m
  simp [postEntry, svcNoText, strFalsy]

/-- Claim C2 as amended: when the completion call fails with a network
error, a non-success status, or a body whose content array is empty, the
store is left unchanged and the caller receives the generic 500 failure;
the handler consults the service only at the single assembled prompt, so
no retry can occur.  However, a body whose first content element lacks a
text field is not treated as a failure: the handler inserts one Entry row
with a NULL aiResponse and answers success. -/
theorem entry_failure_no_write (db : Db) (uid : Nat) (content : String)
    (svc : String → CompletionResult)
    (hc : content ≠ "")
    (hf : svc (aiPrompt db uid content) = .netError
        ∨ (∃ s, svc (aiPrompt db uid content) = .httpError s)
        ∨ svc (aiPrompt db uid content) = .body []) :
    postEntry db uid (some content) svc = (db, .err 500 "Failed to generate recommendation")
    ∧ (∀ svc' : String → CompletionResult,
        svc' (aiPrompt db uid content) = svc (aiPrompt db uid content) →
        postEntry db uid (some content) svc' = postEntry db uid (some content) svc)
    ∧ (∀ svcM : String → CompletionResult, ∀ rest : List (Option String),
        svcM (aiPrompt db uid content) = .body (none :: rest) →
        ∃ e : Entry,
          (postEntry db uid (some content) svcM).1.entries = db.entries ++ [e]
          ∧ e.aiResponse = none
          ∧ (postEntry db uid (some content) svcM).2 = .ok e none) := by
  refine ⟨?_, ?_, ?_⟩
  · rcases hf with h | ⟨s, h⟩ | h <;> simp [postEntry, strFalsy, hc, h]
  · intro svc' h
    simp [postEntry, strFalsy, hc, h]
  · intro svcM rest h
    refine ⟨{ id := db.nextId, userId := uid, content := content,
              aiResponse := none, createdAt := db.clock }, ?_⟩
    simp [postEntry, strFalsy, hc, h]

/-- Witness for the amended C2 with a service whose fetch throws. -/
theorem entry_failure_no_write_witness :
    postEntry db0 1 (some "hello") svcDown = (db0, .err 500 "Failed to generate recommendation")
    ∧ (∀ svc' : String → CompletionResult,
        svc' (aiPrompt db0 1 "hello") = svcDown (aiPrompt db0 1 "hello") →
        postEntry db0 1 (some "hello") svc' = postEntry db0 1 (some "hello") svcDown)
    ∧ (∀ svcM : String → CompletionResult, ∀ rest : List (Option String),
        svcM (aiPrompt db0 1 "hello") = .body (none :: rest) →
        ∃ e : Entry,
          (postEntry db0 1 (some "hello") svcM).1.entries = db0.entries ++ [e]
          ∧ e.aiResponse = none
          ∧ (postEntry db0 1 (some "hello") svcM).2 = .ok e none) :=
  entry_failure_no_write db0 1 "hello" svcDown (by decide) (Or.inl rfl)

/-- Claim C5: an empty or absent content is rejected with the 400
validation error, the store is untouched, the completion service is never
consulted (the outcome is the same for every service), and the status is
distinct from the 500 used for upstream failures. -/
theorem entry_validation_rejects (db : Db) (uid : Nat) (content : Option String)
    (svc : String → CompletionResult)
    (hc : strFalsy content = true) :
    postEntry db uid content svc = (db, .err 400 "Content is required")
    ∧ (∀ svc' : String → CompletionResult,
        postEntry db uid content svc' = postEntry db uid content svc)
    ∧ (∀ m : String, (postEntry db uid content svc).2 ≠ .err 500 m) := by
  refine ⟨by simp [postEntry, hc], fun svc' => by simp [postEntry, hc], fun m => by simp [postEntry, hc]⟩

/-- Witness for C5 at the empty content string. -/
theorem entry_validation_rejects_witness :
    postEntry db0 1 (some "") svcOk = (db0, .err 400 "Content is required")
    ∧ (∀ svc' : String → CompletionResult,
        postEntry db0 1 (some "") svc' = postEntry db0 1 (some "") svcOk)
    ∧ (∀ m : String, (postEntry db0 1 (some "") svcOk).2 ≠ .err 500 m) :=
  entry_validation_rejects db0 1 (some "") svcOk (by decide)


/-- Claim C8 counterexample: a missing header and a cryptographically
invalid token both fail with status 401, but the response messages
differ, so the response does distinguish the cause. -/
theorem auth_messages_distinguish_cause :
    authMiddleware none verifyNone = .err 401 "Unauthorized"
    ∧ authMiddleware (some "Bearer tok") verifyNone = .err 401 "Invalid token"
    ∧ ("Unauthorized" : String) ≠ "Invalid token" :=
  ⟨rfl, by simp [authMiddleware, verifyNone, strStartsWith], by decide⟩

/-- Claim C8 as amended: every authentication failure carries status 401,
and there are exactly two messages: header-level failures (missing header
or missing Bearer marker) answer Unauthorized, while a header of the
right shape whose token fails verification answers Invalid token. -/
theorem auth_failures_status_and_messages
    (header : Option String) (verify : String → Option Nat) :
    (∀ s m, authMiddleware header verify = .err s m →
        s = 401 ∧ (m = "Unauthorized" ∨ m = "Invalid token"))
    ∧ (header = none → authMiddleware header verify = .err 401 "Unauthorized")
    ∧ (∀ h, header = some h → strStartsWith h "Bearer " = false →
        authMiddleware header verify = .err 401 "Unauthorized")
    ∧ (∀ h, header = some h → strStartsWith h "Bearer " = true → verify (h.drop 7) = none →
        authMiddleware header verify = .err 401 "Invalid token") := by
  refine ⟨?_, ?_, ?_, ?_⟩
  · intro s m hm
    cases header with
    | none =>
      simp only [authMiddleware, AuthResult.err.injEq] at hm
      exact ⟨hm.1.symm, Or.inl hm.2.symm⟩
    | some h =>
      simp only [authMiddleware] at hm
      by_cases hb : strStartsWith h "Bearer "
      · rw [if_pos hb] at hm
        cases hv : verify (h.drop 7) with
        | some uid =>
          rw [hv] at hm
          exact absurd hm (by simp)
        | none =>
          rw [hv] at hm
          simp only [AuthResult.err.injEq] at hm
          exact ⟨hm.1.symm, Or.inr hm.2.symm⟩
      · rw [if_neg hb] at hm
        simp only [AuthResult.err.injEq] at hm
        exact ⟨hm.1.symm, Or.inl hm.2.symm⟩
  · rintro rfl
    rfl
  · rintro h rfl hbf
    simp [authMiddleware, hbf]
  · rintro h rfl hbt hvn
    simp [authMiddleware, hbt, hvn]

/-- Witness for the amended C8 at a concrete header and verifier. -/
theorem auth_failures_status_and_messages_witness :
    authMiddleware (some "Bearer x") verifyNone = .err 401 "Invalid token" :=
  (auth_failures_status_and_messages (some "Bearer x") verifyNone).2.2.2
    "Bearer x" rfl (by decide) rfl

/-- Claim C6: logging in twice with the same valid email yields the same
user id both times (also as the signed token claim), the second login
changes nothing, and the first login adds a row exactly when the email
was absent. -/
theorem login_idempotent (db : Db) (e : String) (n1 n2 : Option String)
    (he : e ≠ "") :
    ∃ i : Nat,
      (∃ em nm, (login db (some e) n1).2 = .ok i i em nm)
      ∧ (∃ em nm, (login (login db (some e) n1).1 (some e) n2).2 = .ok i i em nm)
      ∧ (login (login db (some e) n1).1 (some e) n2).1 = (login db (some e) n1).1
      ∧ (login db (some e) n1).1.users.length
          = db.users.length + (if db.users.any (fun u => u.email = e) then 0 else 1) := by
  have hf : strFalsy (some e) = false := by simp [strFalsy, he]
  cases hu : db.users.find? (fun u => u.email = e) with
  | some u =>
    have hany : db.users.any (fun u => u.email = e) = true := by
      rw [List.any_eq_true]
      have hp := List.find?_some hu
      exact ⟨u, List.mem_of_find?_eq_some hu, hp⟩
    refine ⟨u.id, ⟨u.email, u.name, ?_⟩, ⟨u.email, u.name, ?_⟩, ?_, ?_⟩ <;>
      simp [login, hf, hu, hany]
  | none =>
    have hany : db.users.any (fun u => u.email = e) = false :=
      List.any_eq_false.mpr (List.find?_eq_none.mp hu)
    have hfind2 :
        (db.users ++ [{ id := db.nextId, email := e,
                        name := if strFalsy n1 then none else n1 : User }]).find?
          (fun u => u.email = e) = some { id := db.nextId, email := e,
                                          name := if strFalsy n1 then none else n1 : User } := by
      rw [List.find?_append, hu, Option.none_or]
      simp
    refine ⟨db.nextId, ⟨e, if strFalsy n1 then none else n1, ?_⟩,
            ⟨e, if strFalsy n1 then none else n1, ?_⟩, ?_, ?_⟩
    · simp [login, hf, hu]
    · simp [login, hf, hu, hfind2]
    · simp [login, hf, hu, hfind2]
    · simp [login, hf, hu, hany]

/-- Witness for C6: a fresh email against the one-user store. -/
theorem login_idempotent_witness :
    ∃ i : Nat,
      (∃ em nm, (login db0 (some "new@x.y") none).2 = .ok i i em nm)
      ∧ (∃ em nm, (login (login db0 (some "new@x.y") none).1 (some "new@x.y") (some "Bob")).2
          = .ok i i em nm)
      ∧ (login (login db0 (some "new@x.y") none).1 (some "new@x.y") (some "Bob")).1
          = (login db0 (some "new@x.y") none).1
      ∧ (login db0 (some "new@x.y") none).1.users.length
          = db0.users.length + (if db0.users.any (fun u => u.email = "new@x.y") then 0 else 1) :=
  login_idempotent db0 "new@x.y" none (some "Bob") (by decide)

/-- Claim C7: for every user, GET /entries pages through the newest-first
history, taking at most limit rows after skipping offset rows, with
defaults 20 and 0 when the query parameters are absent; with limit 2 and
offset 1 on at least three entries it returns exactly the second-newest
and third-newest rows. -/
theorem entries_pagination (db : Db) (uid : Nat) (limitQ offsetQ : Option Nat) :
    respEntries (getEntries db uid limitQ offsetQ)
      = ((entriesNewestFirst db uid).drop (offsetQ.getD 0)).take (limitQ.getD 20)
    ∧ (∀ i : Nat, (respEntries (getEntries db uid limitQ offsetQ))[i]?
        = if i < limitQ.getD 20 then (entriesNewestFirst db uid)[offsetQ.getD 0 + i]? else none)
    ∧ respEntries (getEntries db uid none none) = (entriesNewestFirst db uid).take 20
    ∧ (3 ≤ (entriesNewestFirst db uid).length →
        (respEntries (getEntries db uid (some 2) (some 1))).length = 2
        ∧ (respEntries (getEntries db uid (some 2) (some 1)))[0]? = (entriesNewestFirst db uid)[1]?
        ∧ (respEntries (getEntries db uid (some 2) (some 1)))[1]? = (entriesNewestFirst db uid)[2]?) := by
  refine ⟨rfl, ?_, by simp [getEntries, respEntries], ?_⟩
  · intro i
    simp [getEntries, respEntries, List.getElem?_take, List.getElem?_drop]
  · intro h3
    refine ⟨?_, ?_, ?_⟩
    · simp only [getEntries, respEntries, Option.getD_some, List.length_take, List.length_drop]
      omega
    · simp [getEntries, respEntries, List.getElem?_take, List.getElem?_drop]
    · simp [getEntries, respEntries, List.getElem?_take, List.getElem?_drop]

/-- A store whose single user owns three entries. -/
def db3 : Db :=
  { users := [{ id := 1, email := "a@b.c", name := none }],
    entries := [
      { id := 2, userId := 1, content := "one", aiResponse := some "r1", createdAt := 1 },
      { id := 3, userId := 1, content := "two", aiResponse := some "r2", createdAt := 2 },
      { id := 4, userId := 1, content := "three", aiResponse := some "r3", createdAt := 3 }],
    contexts := [], nextId := 5, clock := 4 }

/-- Witness for C7 on a store with three entries, discharging the
at-least-three-entries condition of the concrete pagination instance. -/
theorem entries_pagination_witness :
    (respEntries (getEntries db3 1 (some 2) (some 1))).length = 2
    ∧ (respEntries (getEntries db3 1 (some 2) (some 1)))[0]? = (entriesNewestFirst db3 1)[1]?
    ∧ (respEntries (getEntries db3 1 (some 2) (some 1)))[1]? = (entriesNewestFirst db3 1)[2]? :=
  (entries_pagination db3 1 (some 2) (some 1)).2.2.2 (by decide)

/-- The join of a nonempty list is at least as long as its head. -/
lemma joinSep_cons_length (sep x : String) (xs : List String) :
    x.length ≤ (joinSep sep (x :: xs)).length := by
  cases xs with
  | nil => simp [joinSep]
  | cons y ys =>
    simp only [joinSep, String.length_append]
    omega

/-- Joining a nonempty list of nonempty renderings is nonempty. -/
lemma joinSep_map_ne_empty {α : Type} (sep : String) (f : α → String)
    (hf : ∀ a, 0 < (f a).length) (a : α) (as : List α) :
    joinSep sep ((a :: as).map f) ≠ "" := by
  intro h
  rw [List.map_cons] at h
  have h1 := joinSep_cons_length sep (f a) (as.map f)
  rw [h] at h1
  have h2 := hf a
  simp at h1
  omega

/-- The joined facts line is empty exactly when there are no facts. -/
lemma contextString_empty_iff (facts : List ContextFact) :
    contextString facts = "" ↔ facts = [] := by
  cases facts with
  | nil => simp [contextString, joinSep]
  | cons c cs =>
    simp only [contextString]
    constructor
    · intro h
      exact absurd h (joinSep_map_ne_empty _ _ (fun x => by
        have h2 : (": ").length = 2 := by decide
        simp [String.length_append, h2]) c cs)
    · intro h
      simp at h

/-- The joined history block is empty exactly when there are no
entries. -/
lemma historyString_empty_iff (entries : List Entry) :
    historyString entries = "" ↔ entries = [] := by
  cases entries with
  | nil => simp [historyString, joinSep]
  | cons e es =>
    simp only [historyString]
    constructor
    · intro h
      exact absurd h (joinSep_map_ne_empty _ _ (fun x => by
        have h2 : ("User: ").length = 6 := by decide
        simp [String.length_append, h2]) e es)
    · intro h
      simp at h

/-- The facts half of the prompt context, as the spec words it: the
fallback for an empty fact set, otherwise the joined key colon value
pairs. -/
def specFactsPart (facts : List ContextFact) : String :=
  if facts = [] then "No specific context available"
  else joinSep ", " (facts.map fun c => c.contextKey ++ ": " ++ c.contextValue)

/-- The history half of the prompt context, as the spec words it: the
fallback for an empty history, otherwise the joined User/AI blocks. -/
def specHistoryPart (entries : List Entry) : String :=
  if entries = [] then "No previous conversations"
  else joinSep "\n\n" (entries.map fun e => "User: " ++ e.content ++ "\nAI: " ++ optStr e.aiResponse)

/-- The falsy-fallback of the facts line agrees with the spec wording on
every fact list. -/
lemma contextFallback_eq (facts : List ContextFact) :
    (if contextString facts = "" then "No specific context available" else contextString facts)
      = specFactsPart facts := by
  rcases facts with _ | ⟨c, cs⟩
  · simp [contextString, joinSep, specFactsPart]
  · have hne : ¬ contextString (c :: cs) = "" := by
      rw [contextString_empty_iff]
      simp
    unfold specFactsPart
    rw [if_neg hne, if_neg (show ¬ (c :: cs = []) by simp)]
    rfl

/-- The falsy-fallback of the history block agrees with the spec wording
on every entry list. -/
lemma historyFallback_eq (entries : List Entry) :
    (if historyString entries = "" then "No previous conversations" else historyString entries)
      = specHistoryPart entries := by
  rcases entries with _ | ⟨e, es⟩
  · simp [historyString, joinSep, specHistoryPart]
  · have hne : ¬ historyString (e :: es) = "" := by
      rw [historyString_empty_iff]
      simp
    unfold specHistoryPart
    rw [if_neg hne, if_neg (show ¬ (e :: es = []) by simp)]
    rfl

/-- The code facts part refines the spec wording. -/
lemma contextPart_eq_spec (db : Db) (uid : Nat) :
    contextPart db uid = specFactsPart (userContextData db uid) := by
  simp only [contextPart]
  exact contextFallback_eq _

/-- The code history part refines the spec wording. -/
lemma historyPart_eq_spec (db : Db) (uid : Nat) :
    historyPart db uid = specHistoryPart (recentEntries db uid) := by
  simp only [historyPart]
  exact historyFallback_eq _

/-- Claim C3: the prompt context is assembled deterministically: the fact
half is the comma-joined key colon value pairs with its verbatim fallback
at zero facts, the history half joins the min of M and five most recent
entries as User/AI blocks with its verbatim fallback at zero entries,
taken newest first from the per-user history. -/
theorem context_assembly_spec (db : Db) (uid : Nat)
    (hord : List.Pairwise (fun a b : Entry => a.createdAt < b.createdAt) db.entries) :
    contextPart db uid = specFactsPart (userContextData db uid)
    ∧ historyPart db uid = specHistoryPart (recentEntries db uid)
    ∧ recentEntries db uid = (entriesNewestFirst db uid).take 5
    ∧ (recentEntries db uid).length = min (entriesByUser db uid).length 5
    ∧ ((entriesByUser db uid).length = 0 → historyPart db uid = "No previous conversations")
    ∧ ((userContextData db uid).length = 0 → contextPart db uid = "No specific context available")
    ∧ List.Pairwise (fun a b : Entry => b.createdAt < a.createdAt) (recentEntries db uid) := by
  refine ⟨contextPart_eq_spec db uid, historyPart_eq_spec db uid, rfl, ?_, ?_, ?_, ?_⟩
  · simp only [recentEntries, entriesNewestFirst, List.length_take, List.length_reverse]
    omega
  · intro h
    have he : entriesByUser db uid = [] := List.length_eq_zero.mp h
    simp [historyPart, recentEntries, entriesNewestFirst, he, historyString, joinSep]
  · intro h
    have he : userContextData db uid = [] := List.length_eq_zero.mp h
    simp [contextPart, he, contextString, joinSep]
  · have h1 : List.Pairwise (fun a b : Entry => a.createdAt < b.createdAt) (entriesByUser db uid) :=
      hord.filter _
    have h2 : List.Pairwise (fun a b : Entry => b.createdAt < a.createdAt) (entriesNewestFirst db uid) := by
      rw [entriesNewestFirst, List.pairwise_reverse]
      exact h1
    exact h2.sublist (List.take_sublist 5 _)

/-- Witness for C3 on the three-entry store. -/
theorem context_assembly_spec_witness :
    contextPart db3 1 = specFactsPart (userContextData db3 1)
    ∧ historyPart db3 1 = specHistoryPart (recentEntries db3 1)
    ∧ recentEntries db3 1 = (entriesNewestFirst db3 1).take 5
    ∧ (recentEntries db3 1).length = min (entriesByUser db3 1).length 5
    ∧ ((entriesByUser db3 1).length = 0 → historyPart db3 1 = "No previous conversations")
    ∧ ((userContextData db3 1).length = 0 → contextPart db3 1 = "No specific context available")
    ∧ List.Pairwise (fun a b : Entry => b.createdAt < a.createdAt) (recentEntries db3 1) :=
  context_assembly_spec db3 1 (by decide)

/-- Stripping the key/value projection off the freshly inserted rows
recovers the submitted pairs. -/
lemma mkContextRows_map (u i : Nat) (ps : List (String × String)) :
    (mkContextRows u i ps).map (fun r => (r.contextKey, r.contextValue)) = ps := by
  induction ps generalizing i with
  | nil => rfl
  | cons p rest ih =>
    cases p with
    | mk k v => simp [mkContextRows, ih]

/-- Every freshly inserted row belongs to the updating user. -/
lemma mkContextRows_userId (u i : Nat) (ps : List (String × String)) :
    ∀ r ∈ mkContextRows u i ps, r.userId = u := by
  induction ps generalizing i with
  | nil =>
    intro r hr
    simp [mkContextRows] at hr
  | cons p rest ih =>
    intro r hr
    cases p with
    | mk k v =>
      simp only [mkContextRows, List.mem_cons] at hr
      rcases hr with rfl | hr
      · rfl
      · exact ih (i + 1) r hr

/-- After a profile update, the context rows of the updating user are
exactly the expanded submitted pairs, in order. -/
lemma putProfile_userRows (db : Db) (uid : Nat) (body : List (String × PutVal)) :
    ((putProfile db uid body).1.contexts.filter (fun c => c.userId = uid)).map
        (fun r => (r.contextKey, r.contextValue)) = putPairs body := by
  simp only [putProfile]
  rw [List.filter_append]
  have hcl : (db.contexts.filter fun c => c.userId ≠ uid).filter (fun c => c.userId = uid) = [] := by
    rw [List.filter_eq_nil_iff]
    intro a ha
    have h2 := (List.mem_filter.mp ha).2
    simp at h2 ⊢
    exact h2
  have hrw : (mkContextRows uid db.nextId (putPairs body)).filter (fun c => c.userId = uid)
      = mkContextRows uid db.nextId (putPairs body) := by
    rw [List.filter_eq_self]
    intro a ha
    simp [mkContextRows_userId uid db.nextId (putPairs body) a ha]
  rw [hcl, hrw, List.nil_append]
  exact mkContextRows_map uid db.nextId (putPairs body)

/-- Claim C10: a non-array profile value is stored as exactly one row
holding its JS String() coercion, and an empty body deletes every
existing fact of the user, inserts nothing, and still reports success. -/
theorem profile_scalar_stringified (db : Db) (uid : Nat) (k : String) (v : JScalar) :
    putPairs [(k, PutVal.scalar v)] = [(k, jsString v)]
    ∧ ((putProfile db uid [(k, PutVal.scalar v)]).1.contexts.filter (fun c => c.userId = uid)).map
        (fun r => (r.contextKey, r.contextValue)) = [(k, jsString v)]
    ∧ (putProfile db uid []).1.contexts = db.contexts.filter (fun c => c.userId ≠ uid)
    ∧ (putProfile db uid []).2 = .ok true "Profile updated successfully"
    ∧ jsString (JScalar.jnum 7) = "7"
    ∧ jsString (JScalar.jbool true) = "true"
    ∧ jsString JScalar.jnull = "null"
    ∧ jsString JScalar.jobj = "[object Object]" := by
  refine ⟨rfl, ?_, ?_, rfl, rfl, rfl, rfl, rfl⟩
  · exact putProfile_userRows db uid [(k, PutVal.scalar v)]
  · simp [putProfile, putPairs, mkContextRows]

/-- One handled request never rewrites or removes an existing Entry row:
the entries table only ever grows at the end. -/
lemma step_entries_tail (db : Db) (op : Op) :
    ∃ tail, (step db op).entries = db.entries ++ tail := by
  cases op with
  | loginOp e n =>
    refine ⟨[], ?_⟩
    simp only [step, login]
    split
    · simp
    · split <;> simp
  | postEntryOp u c svc =>
    simp only [step, postEntry]
    split
    · exact ⟨[], by simp⟩
    · split
      · exact ⟨[], by simp⟩
      · exact ⟨[], by simp⟩
      · exact ⟨[], by simp⟩
      · exact ⟨_, rfl⟩
  | getEntriesOp u l o =>
    exact ⟨[], by simp [step]⟩
  | getProfileOp u =>
    exact ⟨[], by simp [step]⟩
  | putProfileOp u b =>
    exact ⟨[], by simp [step, putProfile]⟩

/-- Claim C9: Entry rows are immutable after creation: across every
sequence of handled requests the entries table of the final store begins
with the original rows, unchanged and in place; rows are only appended. -/
theorem entries_immutable (db : Db) (ops : List Op) :
    ∃ tail, (run db ops).entries = db.entries ++ tail := by
  induction ops generalizing db with
  | nil => exact ⟨[], by simp [run]⟩
  | cons op rest ih =>
    obtain ⟨t1, h1⟩ := step_entries_tail db op
    obtain ⟨t2, h2⟩ := ih (step db op)
    refine ⟨t1 ++ t2, ?_⟩
    rw [show run db (op :: rest) = run (step db op) rest from rfl, h2, h1, List.append_assoc]
